import Mathlib

/-!
Verification of the evaluation utilities in `tasks/eval_utils.py`
(`accuracy_metric`, `accuracy_func_provider` / `metrics_func`,
`evaluate_metrics`).

Shallow embedding conventions:
* Tensors are modelled along the dimension the code manipulates: the
  sequence dimension of an input batch is a `List α` (each element is the
  column of values that all parallel input tensors carry at one sequence
  position), and numeric tensor entries are rationals `ℚ` (the code works
  with Python floats; the claims under study are exact identities).
* Python floor division `//` is `Int.fdiv`; Python float division raises
  `ZeroDivisionError` on a zero divisor, so it is embedded in `Except`.
* Python exceptions (failed `assert`s, exceptions raised by registered
  metric functions) are `Except` errors that propagate outward.
* The model's train/eval mode flag is explicit state: `evaluate_metrics`
  sets it to `eval` on entry and executes `model.train()` only on the
  statement after the `with torch.no_grad():` block, i.e. only on the
  normal (non-exceptional) exit path, exactly as the Python source does.
-/

namespace EvalUtils

/-- `segment_length = 10`, module-level constant of `eval_utils.py`. -/
def segment_length : ℕ := 10

/-- Python slice `arg[:, lo:hi]` along the sequence dimension:
take positions `lo ≤ i < hi` that exist. -/
def seqSlice {α : Type} (xs : List α) (lo hi : ℕ) : List α :=
  (xs.take hi).drop lo

/-- Number of forward chunks: Python `(L - 1) // segment_length + 1`
with floor division (`Int.fdiv`). -/
def numChunks (L : ℕ) : ℤ :=
  ((L : ℤ) - 1).fdiv (segment_length : ℤ) + 1

/-- The chunking of lines 128-130: for `i` in
`range((inputs[0].size(1) - 1) // segment_length + 1)`, slice
`arg[:, i * segment_length : (i + 1) * segment_length]`. -/
def chunkInputs {α : Type} (xs : List α) : List (List α) :=
  (List.range (numChunks xs.length).toNat).map
    (fun i => seqSlice xs (i * segment_length) ((i + 1) * segment_length))

/-- The chunked forward path of lines 127-136: run the model once per
chunk and `torch.cat` the per-chunk logits back along the sequence
dimension in chunk order. -/
def chunkedForward {α β : Type} (model : List α → List β) (xs : List α) :
    List β :=
  ((chunkInputs xs).map model).flatten

/-- The forward dispatch of lines 127-141: chunk when the sequence
length exceeds `segment_length`, otherwise one call on the full input. -/
def forwardLogits {α β : Type} (model : List α → List β) (xs : List α) :
    List β :=
  if xs.length > segment_length then chunkedForward model xs else model xs

/-- The loss-mask step of lines 142-144:
`logits = logits * loss_mask - 10000.0 * (1.0 - loss_mask)`, pointwise. -/
def applyLossMask (logits mask : List ℚ) : List ℚ :=
  List.zipWith (fun l m => l * m - 10000 * (1 - m)) logits mask

theorem seqSlice_length {α : Type} (xs : List α) (lo hi : ℕ) :
    (seqSlice xs lo hi).length = min hi xs.length - lo := by
  simp [seqSlice]

theorem chunkInputs_len23 {α : Type} (xs : List α) (h : xs.length = 23) :
    chunkInputs xs = [seqSlice xs 0 10, seqSlice xs 10 20, seqSlice xs 20 30] := by
  simp only [chunkInputs, h]
  rfl

/-- Claim C2: for every batch whose sequence-length dimension is 23 with
segment length 10, the chunking step splits every input tensor into
exactly 3 consecutive chunks of sizes [10, 10, 3] along the sequence
dimension (consecutive: their concatenation is the original input), and
concatenating the per-chunk model outputs in chunk order restores
sequence length 23 (for any model whose logits preserve the sequence
length of its input, which the concatenation step presupposes). -/
theorem claim_C2 {α β : Type} (xs : List α) (model : List α → List β)
    (h : xs.length = 23) :
    (chunkInputs xs).length = 3 ∧
    (chunkInputs xs).map List.length = [10, 10, 3] ∧
    (chunkInputs xs).flatten = xs ∧
    ((∀ ys, (model ys).length = ys.length) →
      (chunkedForward model xs).length = 23) := by
  have hchunks := chunkInputs_len23 xs h
  refine ⟨by rw [hchunks]; rfl, ?_, ?_, ?_⟩
  · rw [hchunks]
    simp only [List.map_cons, List.map_nil, seqSlice_length, h]
    decide
  · rw [hchunks]
    have h30 : xs.take 30 = xs := List.take_of_length_le (by omega)
    have h20 : (xs.take 20).drop 10 = (xs.drop 10).take 10 :=
      (List.take_drop 10 10 xs).symm
    have hdd : xs.drop 20 = (xs.drop 10).drop 10 := by
      rw [List.drop_drop]
    simp only [List.flatten, seqSlice, List.drop_zero, h30, h20, hdd,
      List.append_nil]
    rw [List.take_append_drop, List.take_append_drop]
  · intro hm
    rw [chunkedForward, hchunks]
    simp only [List.map_cons, List.map_nil, List.flatten,
      List.append_nil, List.length_append, hm, seqSlice_length, h]
    decide

/-- Witness for C2 at the concrete input `List.range 23` with the
identity model. -/
theorem claim_C2_witness :
    (EvalUtils.chunkInputs (List.range 23)).map List.length = [10, 10, 3] ∧
    (EvalUtils.chunkedForward (fun l : List ℕ => l) (List.range 23)).length = 23 :=
  ⟨(claim_C2 (List.range 23) (fun l => l) (by decide)).2.1,
   (claim_C2 (List.range 23) (fun l => l) (by decide)).2.2.2 (fun _ => rfl)⟩

/-- For `1 ≤ L ≤ 10` the Python chunk count `(L - 1) // 10 + 1` is 1. -/
theorem numChunks_eq_one {L : ℕ} (h1 : 1 ≤ L) (h2 : L ≤ 10) :
    (numChunks L).toNat = 1 := by
  interval_cases L <;> rfl

/-- Claim C3: for every batch whose sequence length is at most the
segment length (10) and every model that is a pure function on its
inputs (with logits preserving the sequence length), the chunked
forward path and the non-chunked forward path produce identical logits;
in particular the dispatch of lines 127-141 (which takes the
non-chunked branch here) agrees with both. -/
theorem claim_C3 {α β : Type} (model : List α → List β) (xs : List α)
    (hm : ∀ ys, (model ys).length = ys.length)
    (hlen : xs.length ≤ segment_length) :
    chunkedForward model xs = model xs ∧ forwardLogits model xs = model xs := by
  have hc : chunkedForward model xs = model xs := by
    rcases Nat.eq_zero_or_pos xs.length with h0 | hpos
    · have hxs : xs = [] := List.eq_nil_of_length_eq_zero h0
      have hmnil : model [] = [] :=
        List.eq_nil_of_length_eq_zero (by rw [hm]; rfl)
      subst hxs
      have hnil : chunkedForward model ([] : List α) = [] := rfl
      rw [hnil, hmnil]
    · have hone := numChunks_eq_one hpos hlen
      have hfull : xs.take 10 = xs := List.take_of_length_le hlen
      have hchunk : chunkInputs xs = [xs] := by
        rw [chunkInputs, hone]
        have hr : List.range 1 = [0] := rfl
        rw [hr, List.map_cons, List.map_nil]
        simp [seqSlice, segment_length, hfull]
      rw [chunkedForward, hchunk]
      simp
  exact ⟨hc, by rw [forwardLogits, if_neg (by omega)]⟩

/-- Witness for C3 at the concrete input `[5, 6, 7]` with the model
mapping each position value to its successor. -/
theorem claim_C3_witness :
    EvalUtils.chunkedForward (fun l : List ℕ => l.map Nat.succ) [5, 6, 7] =
      [6, 7, 8] :=
  ((claim_C3 (fun l : List ℕ => l.map Nat.succ) [5, 6, 7]
    (fun ys => ys.length_map Nat.succ) (by decide)).1).trans rfl

/-- A batch as seen by the scoring loop of `evaluate_metrics`: the label
tensor along the batch dimension (`labels_`) and the optional
`example_batch` looked up from the dataset's `examples` by uid. -/
structure EvalBatch where
  labels_ : List ℤ
  exampleBatch : Option (List ℕ)

/-- A registered metric function, called as
`metric(predicted.tolist(), labels_.tolist(), example_batch)`; it may
raise (modelled as `Except.error`). -/
def MetricFn : Type := List ℤ → List ℤ → Option (List ℕ) → Except String ℚ

/-- `accuracy_metric` of lines 30-35: asserts
`len(predictions) == len(labels)` (raising when violated), counts the
positions where prediction equals label, and returns `count * 100.0`. -/
def accuracy_metric (predictions labels : List ℤ)
    (examples : Option (List ℕ)) : Except String ℚ :=
  if predictions.length = labels.length then
    .ok ((((predictions.zip labels).countP fun pl => pl.1 == pl.2) : ℕ) * 100)
  else
    .error "assert len(predictions) == len(labels)"

/-- One round of `score_dict[key] += metric(predicted.tolist(),
labels_.tolist(), example_batch)` over the registered metric dictionary
(running sums kept in registration order, parallel to `metricDict`); an
exception raised by any metric propagates. -/
def updateScores : List (String × MetricFn) → List ℚ → List ℤ → List ℤ →
    Option (List ℕ) → Except String (List ℚ)
  | [], _, _, _, _ => .ok []
  | _ :: _, [], _, _, _ => .ok []
  | (_, m) :: mds, s :: ss, predicted, labels, ex =>
      match m predicted labels ex with
      | .error e => .error e
      | .ok v =>
          match updateScores mds ss predicted labels ex with
          | .error e => .error e
          | .ok tail => .ok ((s + v) :: tail)

/-- The batch loop of lines 112-163 (the body of the
`with torch.no_grad():` block): per batch, compute `predicted` from the
model logits, add each metric's contribution when the dataset is
labeled, and add `labels_.size(0)` to `total`. The model forward pass
composed with `torch.argmax(logits, dim=-1)` is abstracted as the pure
function `predict`. -/
def evalLoop (metricDict : List (String × MetricFn)) (labeled : Bool)
    (predict : EvalBatch → List ℤ) :
    List EvalBatch → List ℚ → ℕ → Except String (List ℚ × ℕ)
  | [], scores, total => .ok (scores, total)
  | b :: rest, scores, total =>
      match
        if labeled then
          updateScores metricDict scores (predict b) b.labels_ b.exampleBatch
        else
          .ok scores
      with
      | .error e => .error e
      | .ok scores' =>
          evalLoop metricDict labeled predict rest scores'
            (total + b.labels_.length)

/-- The scoring pass of `evaluate_metrics` up to (and excluding) the
cross-worker reduction: all score sums initialized to zero, `total = 0`,
then the batch loop. -/
def evaluate_metrics_core (metricDict : List (String × MetricFn))
    (labeled : Bool) (predict : EvalBatch → List ℤ)
    (batches : List EvalBatch) : Except String (List ℚ × ℕ) :=
  evalLoop metricDict labeled predict batches
    (metricDict.map fun _ => (0 : ℚ)) 0

/-- The model's train/eval mode flag. -/
inductive ModelMode
  | train
  | eval
  deriving DecidableEq

/-- The mode discipline of `evaluate_metrics` (lines 101-164):
`model.eval()` is executed at entry; `model.train()` is the first
statement after the `with torch.no_grad():` block, so it runs only when
that block exits normally — an exception raised inside the loop (e.g. by
a registered metric function) propagates and leaves the model in
evaluation mode. The result pairs the model's final mode flag with the
propagated outcome of the pass. -/
def evaluate_metrics_mode (metricDict : List (String × MetricFn))
    (labeled : Bool) (predict : EvalBatch → List ℤ)
    (batches : List EvalBatch) :
    ModelMode × Except String (List ℚ × ℕ) :=
  match evaluate_metrics_core metricDict labeled predict batches with
  | .error e => (ModelMode.eval, .error e)
  | .ok r => (ModelMode.train, .ok r)

/-- Pointwise sum of two packed vectors: one combining step of the sum
`all_reduce` of lines 170-171. -/
def vecAdd (v w : List ℚ) : List ℚ := List.zipWith (· + ·) v w

/-- The cross-worker sum `all_reduce` over the data-parallel group,
modelled functionally: every member contributes its packed vector and
each receives the pointwise sum over the whole group. -/
def reduceAcross : List (List ℚ) → List ℚ
  | [] => []
  | v :: vs => vs.foldl vecAdd v

/-- The packing of lines 167-169: the running sums in sorted key order
followed by `total`, as one numeric vector. -/
def packVec (scores : List ℚ) (total : ℚ) : List ℚ := scores ++ [total]

/-- The unpacking of line 176: `total_count = unreduced[-1]`. -/
def unpackTotal (v : List ℚ) : ℚ := v.getLastD 0

/-- The unpacking of lines 174-175: `score_dict[key] = unreduced[i]` for
the i-th sorted key, i.e. everything but the last entry. -/
def unpackScores (v : List ℚ) : List ℚ := v.dropLast

/-- Counterexample to claim C1 as stated: with `accuracy_metric`
registered and a model predicting an empty list for a batch carrying one
label, the metric's length assertion raises during the pass, and
`evaluate_metrics` exits with the model still in evaluation mode —
training mode is not restored on this exit path. -/
theorem claim_C1_cex :
    (evaluate_metrics_mode [("accuracy", accuracy_metric)] true
        (fun _ => []) [⟨[0], none⟩]).1 = ModelMode.eval ∧
    (evaluate_metrics_mode [("accuracy", accuracy_metric)] true
        (fun _ => []) [⟨[0], none⟩]).2 =
      Except.error "assert len(predictions) == len(labels)" ∧
    ModelMode.eval ≠ ModelMode.train :=
  ⟨rfl, rfl, by decide⟩

/-- Claim C1 (amended): the model is switched to evaluation mode at
entry and restored to training mode on the normal exit path of the
scoring pass; but when a registered metric function raises during the
pass, the exception propagates and the model is left in evaluation mode
(`model.train()` on line 164 is not protected by `try/finally`). -/
theorem claim_C1_amended (metricDict : List (String × MetricFn))
    (labeled : Bool) (predict : EvalBatch → List ℤ)
    (batches : List EvalBatch) :
    (evaluate_metrics_mode metricDict labeled predict batches).1 =
      match (evaluate_metrics_mode metricDict labeled predict batches).2 with
      | .ok _ => ModelMode.train
      | .error _ => ModelMode.eval := by
  unfold evaluate_metrics_mode
  cases evaluate_metrics_core metricDict labeled predict batches <;> rfl

/-- `total` accumulates exactly the per-batch label counts: whatever the
loop's outcome arithmetic, a normal exit carries
`t0 + sum of labels_.size(0)`. -/
theorem evalLoop_total (metricDict : List (String × MetricFn))
    (labeled : Bool) (predict : EvalBatch → List ℤ) :
    ∀ (batches : List EvalBatch) (scores0 : List ℚ) (t0 : ℕ)
      (scores : List ℚ) (total : ℕ),
      evalLoop metricDict labeled predict batches scores0 t0 =
        .ok (scores, total) →
      total = t0 + (batches.map fun b => b.labels_.length).sum := by
  intro batches
  induction batches with
  | nil =>
      intro s0 t0 s t h
      simp only [evalLoop] at h
      cases h
      simp
  | cons b rest ih =>
      intro s0 t0 s t h
      simp only [evalLoop] at h
      cases hupd :
        (if labeled then
          updateScores metricDict s0 (predict b) b.labels_ b.exampleBatch
        else .ok s0) with
      | error e => rw [hupd] at h; cases h
      | ok s1 =>
          rw [hupd] at h
          have := ih s1 (t0 + b.labels_.length) s t h
          simp only [List.map_cons, List.sum_cons]
          omega

/-- Summing packed vectors over a group: the last slot accumulates the
totals, the metric slots keep their common length. -/
theorem foldl_vecAdd_pack (ws : List (List ℚ × ℚ)) :
    ∀ (s0 : List ℚ) (t0 : ℚ), (∀ w ∈ ws, w.1.length = s0.length) →
      ∃ s : List ℚ, s.length = s0.length ∧
        (ws.map fun w => packVec w.1 w.2).foldl vecAdd (packVec s0 t0) =
          packVec s (t0 + (ws.map Prod.snd).sum) := by
  induction ws with
  | nil =>
      intro s0 t0 _
      exact ⟨s0, rfl, by simp [packVec]⟩
  | cons w ws ih =>
      intro s0 t0 hlen
      have hw : w.1.length = s0.length := hlen w (List.mem_cons_self w ws)
      have hstep : vecAdd (packVec s0 t0) (packVec w.1 w.2) =
          packVec (List.zipWith (· + ·) s0 w.1) (t0 + w.2) := by
        rw [vecAdd, packVec, packVec, packVec,
          List.zipWith_append _ _ _ _ _ hw.symm]
        rfl
      have hzlen : (List.zipWith (· + ·) s0 w.1).length = s0.length := by
        rw [List.length_zipWith, hw, min_self]
      obtain ⟨s, hs, heq⟩ :=
        ih (List.zipWith (· + ·) s0 w.1) (t0 + w.2)
          (fun v hv => by rw [hzlen]; exact hlen v (List.mem_cons_of_mem w hv))
      refine ⟨s, by rw [hs, hzlen], ?_⟩
      rw [List.map_cons, List.foldl_cons, hstep, heq, List.map_cons,
        List.sum_cons, add_assoc]

/-- Claim C5: on every scoring pass that completes, the pre-reduction
`total` equals the sum over processed batches of the batch's
label-tensor size along the batch dimension; and the post-reduction
total (the last slot of the reduced packed vector) equals the
cross-worker sum of the per-worker pre-reduction totals. -/
theorem claim_C5 (metricDict : List (String × MetricFn)) (labeled : Bool)
    (predict : EvalBatch → List ℤ) (batches : List EvalBatch)
    (workers : List (List ℚ × ℚ)) (n : ℕ) :
    (∀ scores total,
        evaluate_metrics_core metricDict labeled predict batches =
          .ok (scores, total) →
        total = (batches.map fun b => b.labels_.length).sum) ∧
    ((∀ w ∈ workers, w.1.length = n) →
      unpackTotal (reduceAcross (workers.map fun w => packVec w.1 w.2)) =
        (workers.map Prod.snd).sum) := by
  constructor
  · intro scores total h
    have := evalLoop_total metricDict labeled predict batches
      (metricDict.map fun _ => (0 : ℚ)) 0 scores total h
    omega
  · intro hlen
    cases workers with
    | nil => simp [reduceAcross, unpackTotal]
    | cons w ws =>
        rw [List.map_cons, reduceAcross]
        obtain ⟨s, _, heq⟩ := foldl_vecAdd_pack ws w.1 w.2
          (fun v hv => by
            rw [hlen w (List.mem_cons_self w ws)]
            exact hlen v (List.mem_cons_of_mem w hv))
        rw [heq, unpackTotal, packVec, List.getLastD_concat,
          List.map_cons, List.sum_cons]

/-- Witness for C5: a two-batch pass with label counts 2 and 1 gives
pre-reduction total 3, and the reduction of two workers with totals 50
and 50 yields 100. -/
theorem claim_C5_witness :
    (3 : ℕ) = (([⟨[1, 2], none⟩, ⟨[3], none⟩] : List EvalBatch).map
        fun b => b.labels_.length).sum ∧
    unpackTotal (reduceAcross (([([(80 : ℚ)], (50 : ℚ)), ([15], 50)]).map
        fun w => packVec w.1 w.2)) = 100 :=
  ⟨(claim_C5 [("accuracy", accuracy_metric)] false (fun b => b.labels_)
      [⟨[1, 2], none⟩, ⟨[3], none⟩] [] 0).1 [0] 3 rfl,
   ((claim_C5 [] true (fun b => b.labels_) []
      [([(80 : ℚ)], (50 : ℚ)), ([15], 50)] 1).2 (by decide)).trans
      (by norm_num)⟩

/-- Claim C6: over a data-parallel group of size 1, the sum-reduction of
the packed vector (metric sums in key order followed by `total`) is the
identity — the vector, every unpacked metric sum and the unpacked total
are unchanged. -/
theorem claim_C6 (scores : List ℚ) (total : ℚ) :
    reduceAcross [packVec scores total] = packVec scores total ∧
    unpackScores (reduceAcross [packVec scores total]) = scores ∧
    unpackTotal (reduceAcross [packVec scores total]) = total := by
  refine ⟨rfl, ?_, ?_⟩
  · show (scores ++ [total]).dropLast = scores
    simp
  · exact List.getLastD_concat 0 total scores

/-- Claim C4: the loss-mask step applies the affine transform
`logits * mask - 10000 * (1 - mask)` pointwise (this is the definition
`applyLossMask`, read off lines 142-144), and with a mask that is 1 at
every position it leaves the logits unchanged. -/
theorem claim_C4 (logits : List ℚ) :
    applyLossMask logits (List.replicate logits.length 1) = logits := by
  induction logits with
  | nil => rfl
  | cons x xs ih =>
      simp only [applyLossMask, List.length_cons, List.replicate_succ,
        List.zipWith_cons_cons] at ih ⊢
      rw [ih]
      norm_num

/-- The Python errors `metrics_func` can surface: the fatal
single-worker assertion on line 58, `ZeroDivisionError` from
`score / float(total)` on line 76, and the fatal `args.load` assertion
on line 85. -/
inductive PyErr
  | assertWorldSize
  | zeroDivision
  | assertLoad
  deriving DecidableEq

/-- The slice of `args` and ambient distributed state that
`metrics_func` reads: `output_predictions`, the data-parallel world
size, `torch.distributed.get_rank()` and `args.load`. -/
structure MfArgs where
  outputPredictions : Bool
  dpWorldSize : ℕ
  rank : ℕ
  load : Option String

/-- What one scoring pass (`evaluate_metrics`) hands back to
`metrics_func` for one dataset: the dataset's name, its reduced per-key
metric sums (`single_dict`) and its reduced total (`total_count`). -/
structure DatasetResult where
  name : String
  singleDict : String → ℚ
  totalCount : ℚ

/-- Lines 73-75: `score_dict[key] += single_dict[key]` accumulated over
all datasets, for every registered key. -/
def combinedScores (metricKeys : List String) (rs : List DatasetResult) :
    List (String × ℚ) :=
  metricKeys.map fun k => (k, (rs.map fun r => r.singleDict k).sum)

/-- Line 75: `total += total_count` accumulated over all datasets. -/
def combinedTotal (rs : List DatasetResult) : ℚ :=
  (rs.map DatasetResult.totalCount).sum

/-- Lines 59 and 71: `names = 'predictions'`, then `names += '_' + name`
once per dataset. -/
def predictionsName (rs : List DatasetResult) : String :=
  rs.foldl (fun acc r => acc ++ "_" ++ r.name) "predictions"

/-- Python float division, which raises `ZeroDivisionError` on a zero
divisor. -/
def pyDivide (x y : ℚ) : Except PyErr ℚ :=
  if y = 0 then .error .zeroDivision else .ok (x / y)

/-- Line 76: the dict comprehension
`{key: score / float(total) for key, score in score_dict.items()}`. -/
def divideScores (total : ℚ) : List (String × ℚ) →
    Except PyErr (List (String × ℚ))
  | [] => .ok []
  | kv :: rest =>
      match pyDivide kv.2 total with
      | .error e => .error e
      | .ok r =>
          match divideScores total rest with
          | .error e => .error e
          | .ok tail => .ok ((kv.1, r) :: tail)

/-- `metrics_func` of lines 53-88, with the per-dataset scoring passes
abstracted by their returned results `rs`: assert the single-worker
precondition when predictions are requested (line 58), combine the
per-dataset sums and totals (lines 73-75), convert sums to rates by
Python division (line 76, fatal on a zero total), then attempt the
persistence write `torch.save(named_predictions,
os.path.join(args.load, names + '.pt'))` exactly under the condition of
line 84 (`output_predictions and torch.distributed.get_rank() == 0`),
asserting `args.load is not None` on line 85. Returns the rate mapping
together with the written path, if any. -/
def metrics_func (metricKeys : List String) (a : MfArgs)
    (rs : List DatasetResult) :
    Except PyErr (List (String × ℚ) × Option String) :=
  if a.outputPredictions ∧ a.dpWorldSize ≠ 1 then .error .assertWorldSize
  else
    match divideScores (combinedTotal rs) (combinedScores metricKeys rs) with
    | .error e => .error e
    | .ok rates =>
        if a.outputPredictions ∧ a.rank = 0 then
          match a.load with
          | none => .error .assertLoad
          | some dir =>
              .ok (rates, some (dir ++ "/" ++ predictionsName rs ++ ".pt"))
        else .ok (rates, none)

/-- With a nonzero total, every rate is computed and no division
fails. -/
theorem divideScores_ok {total : ℚ} (h : total ≠ 0) :
    ∀ l : List (String × ℚ), divideScores total l =
      .ok (l.map fun kv => (kv.1, kv.2 / total)) := by
  intro l
  induction l with
  | nil => rfl
  | cons kv rest ih => simp [divideScores, pyDivide, h, ih]

/-- With a zero total and at least one key, the first division
raises. -/
theorem divideScores_zero (kv : String × ℚ) (rest : List (String × ℚ)) :
    divideScores 0 (kv :: rest) = .error .zeroDivision := by
  simp [divideScores, pyDivide]

/-- Whether a `metrics_func` outcome attempted the persistence write,
i.e. execution reached line 85: either the `args.load` assertion failed
there or a path was written. -/
def writeAttempted :
    Except PyErr (List (String × ℚ) × Option String) → Bool
  | .error .assertLoad => true
  | .ok (_, some _) => true
  | _ => false

/-- Claim C7: combining two datasets whose scoring passes return totals
100 and 200 and metric sums 80 and 150 for the same key yields the rate
(80+150)/(100+200) for that key, which rounds to 0.7667 at 4 decimal
places. -/
theorem claim_C7 :
    metrics_func ["accuracy"] ⟨false, 1, 0, none⟩
        [⟨"d1", fun _ => 80, 100⟩, ⟨"d2", fun _ => 150, 200⟩] =
      .ok ([("accuracy", ((80 : ℚ) + 150) / (100 + 200))], none) ∧
    ((80 : ℚ) + 150) / (100 + 200) = 23 / 30 ∧
    (round ((((80 : ℚ) + 150) / (100 + 200)) * 10 ^ 4) : ℚ) / 10 ^ 4 =
      7667 / 10000 := by
  have htot : combinedTotal
      [⟨"d1", fun _ => 80, 100⟩, ⟨"d2", fun _ => 150, 200⟩] = 300 := by
    norm_num [combinedTotal]
  have hsc : combinedScores ["accuracy"]
      [⟨"d1", fun _ => 80, 100⟩, ⟨"d2", fun _ => 150, 200⟩] =
      [("accuracy", 230)] := by
    norm_num [combinedScores]
  refine ⟨?_, by norm_num, ?_⟩
  · rw [metrics_func, htot, hsc, if_neg (by simp)]
    rw [divideScores_ok (by norm_num) [("accuracy", 230)]]
    norm_num
  · norm_num [round_eq]

/-- Claim C8: when the scoring passes complete and the combined total is
nonzero (so the rate computation on line 76 does not abort first), the
prediction-persistence write is attempted iff prediction emission is
requested, the data-parallel world size is 1 and the process rank is 0;
when it is attempted, an unset load directory is a fatal assertion
failure, and otherwise the Named Predictions collection is written to
`{loadDirectory}/predictions_{dataset1}_{dataset2}....pt`. -/
theorem claim_C8 (metricKeys : List String) (a : MfArgs)
    (rs : List DatasetResult) (htot : combinedTotal rs ≠ 0) :
    (writeAttempted (metrics_func metricKeys a rs) = true ↔
      a.outputPredictions = true ∧ a.dpWorldSize = 1 ∧ a.rank = 0) ∧
    (a.outputPredictions = true → a.dpWorldSize = 1 → a.rank = 0 →
      (a.load = none → metrics_func metricKeys a rs = .error .assertLoad) ∧
      ∀ dir, a.load = some dir →
        ∃ rates, metrics_func metricKeys a rs =
          .ok (rates, some (dir ++ "/" ++ predictionsName rs ++ ".pt"))) := by
  obtain ⟨op, ws, rk, ld⟩ := a
  simp only [metrics_func, divideScores_ok htot]
  cases op with
  | false => simp [writeAttempted]
  | true =>
      by_cases hws : ws = 1
      · subst hws
        rw [if_neg (by simp)]
        by_cases hrk : rk = 0
        · subst hrk
          rw [if_pos (by simp)]
          cases ld with
          | none => simp [writeAttempted]
          | some dir => simp [writeAttempted]
        · rw [if_neg (by simp [hrk])]
          simp [writeAttempted, hrk]
      · rw [if_pos (by simp [hws])]
        simp [writeAttempted, hws]

/-- Witness for C8: with predictions requested, world size 1, rank 0, a
configured load directory and one dataset with total 100, the write is
attempted and lands at `ckpt/predictions_d1.pt`. -/
theorem claim_C8_witness :
    writeAttempted (metrics_func ["accuracy"] ⟨true, 1, 0, some "ckpt"⟩
        [⟨"d1", fun _ => 80, 100⟩]) = true ∧
    ∃ rates, metrics_func ["accuracy"] ⟨true, 1, 0, some "ckpt"⟩
        [⟨"d1", fun _ => 80, 100⟩] =
      .ok (rates, some ("ckpt" ++ "/" ++
        predictionsName [⟨"d1", fun _ => 80, 100⟩] ++ ".pt")) :=
  ⟨(claim_C8 ["accuracy"] ⟨true, 1, 0, some "ckpt"⟩ [⟨"d1", fun _ => 80, 100⟩]
      (by norm_num [combinedTotal])).1.mpr ⟨rfl, rfl, rfl⟩,
   ((claim_C8 ["accuracy"] ⟨true, 1, 0, some "ckpt"⟩ [⟨"d1", fun _ => 80, 100⟩]
      (by norm_num [combinedTotal])).2 rfl rfl rfl).2 "ckpt" rfl⟩

/-- Claim C10: with at least one registered metric key and nonnegative
per-dataset totals (they are example counts), a combined total of 0
makes the per-metric rate computation divide by zero, so the call fails
rather than returning a rate mapping (`ZeroDivisionError` whenever the
single-worker assertion does not fire first); conversely, a returned
rate mapping implies the combined total is positive. -/
theorem claim_C10 (metricKeys : List String) (a : MfArgs)
    (rs : List DatasetResult) (hkeys : metricKeys ≠ [])
    (hnn : ∀ r ∈ rs, 0 ≤ r.totalCount) :
    (combinedTotal rs = 0 → ∀ out, metrics_func metricKeys a rs ≠ .ok out) ∧
    (a.outputPredictions = false → combinedTotal rs = 0 →
      metrics_func metricKeys a rs = .error .zeroDivision) ∧
    (∀ out, metrics_func metricKeys a rs = .ok out →
      0 < combinedTotal rs) := by
  obtain ⟨k, ks, rfl⟩ : ∃ k ks, metricKeys = k :: ks := by
    cases metricKeys with
    | nil => exact absurd rfl hkeys
    | cons k ks => exact ⟨k, ks, rfl⟩
  obtain ⟨v, tail, hcs⟩ :
      ∃ v tail, combinedScores (k :: ks) rs = (k, v) :: tail := ⟨_, _, rfl⟩
  have herr : combinedTotal rs = 0 →
      metrics_func (k :: ks) a rs = .error .zeroDivision ∨
      metrics_func (k :: ks) a rs = .error .assertWorldSize := by
    intro h0
    simp only [metrics_func]
    split
    · exact Or.inr rfl
    · rw [h0, hcs, divideScores_zero]
      exact Or.inl rfl
  have hnonneg : 0 ≤ combinedTotal rs := by
    apply List.sum_nonneg
    intro x hx
    obtain ⟨r, hr, rfl⟩ := List.mem_map.mp hx
    exact hnn r hr
  refine ⟨?_, ?_, ?_⟩
  · intro h0 out hok
    rcases herr h0 with h | h <;> rw [h] at hok <;> cases hok
  · intro hop h0
    simp only [metrics_func]
    rw [if_neg (by simp [hop]), h0, hcs, divideScores_zero]
  · intro out hok
    by_contra hnotpos
    push_neg at hnotpos
    have h0 : combinedTotal rs = 0 := le_antisymm hnotpos hnonneg
    rcases herr h0 with h | h <;> rw [h] at hok <;> cases hok

/-- Witness for C10: one registered key, no completed examples
(combined total 0) — the call fails with `ZeroDivisionError`. -/
theorem claim_C10_witness :
    metrics_func ["accuracy"] ⟨false, 1, 0, none⟩ [] =
      .error .zeroDivision :=
  (claim_C10 ["accuracy"] ⟨false, 1, 0, none⟩ [] (by simp)
    (by simp)).2.1 rfl rfl

/-- The slice of `args` read by `accuracy_func_provider` while building
dataloaders: the two optional datapath lists, the evaluation batch size
and the loader worker count. -/
structure ProviderArgs where
  test_data : Option (List String)
  valid_data : Option (List String)
  batch_size : ℕ
  num_workers : ℕ

/-- Lines 41-44: `args.test_data if it is not None else ['test']` when
`is_test`, otherwise `args.valid_data if it is not None else ['dev']`. -/
def resolveDatapaths (is_test : Bool) (args : ProviderArgs) :
    List String :=
  if is_test then args.test_data.getD ["test"]
  else args.valid_data.getD ["dev"]

/-- The dataloader configuration fixed by the `build_data_loader` call
on lines 48-50. -/
structure DataLoaderConfig where
  batch_size : ℕ
  num_workers : ℕ
  drop_last : Bool
  shuffle : Bool
  deriving DecidableEq

/-- Lines 48-50: every dataloader is built with the evaluation batch
size and worker count,
`drop_last=(mpu.get_data_parallel_world_size() > 1)` and
`shuffle=False`. -/
def build_data_loader_config (args : ProviderArgs) (dpWorldSize : ℕ) :
    DataLoaderConfig :=
  ⟨args.batch_size, args.num_workers, decide (dpWorldSize > 1), false⟩

/-- Lines 41-51: the provider resolves the datapath list and builds one
`(dataset_name, dataloader)` pair per path; `nameOf` abstracts
`single_dataset_provider(datapath).dataset_name`. -/
def accuracy_func_provider_loaders (nameOf : String → String)
    (is_test : Bool) (args : ProviderArgs) (dpWorldSize : ℕ) :
    List (String × DataLoaderConfig) :=
  (resolveDatapaths is_test args).map
    fun p => (nameOf p, build_data_loader_config args dpWorldSize)

/-- Claim C9: setup selects the test-path list when `is_test` and the
validation-path list otherwise, substituting the single-element defaults
`['test']` / `['dev']` when the selected list is unset, and every built
dataloader has shuffling disabled and drops the last partial batch
exactly when the data-parallel world size exceeds 1. -/
theorem claim_C9 (nameOf : String → String) (args : ProviderArgs)
    (dpWorldSize : ℕ) :
    (resolveDatapaths true args = args.test_data.getD ["test"]) ∧
    (resolveDatapaths false args = args.valid_data.getD ["dev"]) ∧
    (args.test_data = none → resolveDatapaths true args = ["test"] ∧
      (resolveDatapaths true args).length = 1) ∧
    (args.valid_data = none → resolveDatapaths false args = ["dev"] ∧
      (resolveDatapaths false args).length = 1) ∧
    (∀ is_test name cfg,
      (name, cfg) ∈
        accuracy_func_provider_loaders nameOf is_test args dpWorldSize →
      cfg.shuffle = false ∧ (cfg.drop_last = true ↔ 1 < dpWorldSize)) := by
  refine ⟨rfl, rfl, ?_, ?_, ?_⟩
  · intro h
    rw [resolveDatapaths, if_pos rfl, h]
    exact ⟨rfl, rfl⟩
  · intro h
    rw [resolveDatapaths, if_neg (by simp), h]
    exact ⟨rfl, rfl⟩
  · intro is_test name cfg hmem
    have hmem' : ∃ p ∈ resolveDatapaths is_test args, nameOf p = name ∧
        build_data_loader_config args dpWorldSize = cfg := by
      simpa [accuracy_func_provider_loaders] using hmem
    obtain ⟨p, -, -, hp⟩ := hmem'
    subst hp
    exact ⟨rfl, by simp [build_data_loader_config]⟩

/-- Witness for C9: with both datapath lists unset and world size 2, the
test selection resolves to the default `['test']` and the built loader
keeps `shuffle=False` with `drop_last=True`. -/
theorem claim_C9_witness :
    resolveDatapaths true ⟨none, none, 4, 2⟩ = ["test"] ∧
    ((⟨4, 2, true, false⟩ : DataLoaderConfig).shuffle = false ∧
      ((⟨4, 2, true, false⟩ : DataLoaderConfig).drop_last = true ↔ 1 < 2)) :=
  ⟨((claim_C9 (fun s => s) ⟨none, none, 4, 2⟩ 2).2.2.1 rfl).1,
   (claim_C9 (fun s => s) ⟨none, none, 4, 2⟩ 2).2.2.2.2 true "test"
     ⟨4, 2, true, false⟩ (by decide)⟩

end EvalUtils
